import Mathlib

/-!
Verification of the task-orchestration core of `web_translator.py`
(excel-translator): the in-memory task registry `TASKS`, the per-task
worker `_run_task`, the cancellation endpoint `task_cancel`, the SSE
progress stream `sse_progress`, and the retention cleanup
`_schedule_state_cleanup`.

Modelling conventions:
* Each `with TASKS_LOCK:` block of the source is one atomic operation on
  the registry (`opSafeUpdate`, `getState`, `opPop`).
* A task's state dict is the structure `ProgressState`; dict keys that are
  absent until first written (`eta_seconds`, `started_at`, `finished_at`,
  `download_filename`) are `Option` fields.
* A partial dict passed to `_safe_update` is an `UpdateKV`; `applyKV` is
  `st.update(kv)`.
* The worker `_run_task` is a sequential thread; its interaction with the
  outside world is abstracted by oracles in `RunEnv`: the outcome of
  loading/scanning the spreadsheet (`load`), the value each in-loop
  cancellation check reads from the registry (`cancelObs`), an exception
  possibly raised inside iteration `idx` (`raiseAt`), the outcome of
  `wb.save` (`saveResult`), and wall-clock readings (`startT`, `finishT`,
  `elapsedAt`).  `runTaskUpdates` is the exact sequence of `_safe_update`
  calls the worker issues, branch for branch, for given oracle values.
* Real arithmetic (`time.time()`, `1e-6`, float division) is modelled
  exactly over `Rat`; Python's `int(...)` truncation toward zero is
  `pyInt`.
-/

/-- The values of the `status` key: `idle | running | done | error | canceled`. -/
inductive Status
  | idle
  | running
  | done
  | error
  | canceled
deriving DecidableEq, Repr

/-- The terminal statuses, the tuple `("done", "error", "canceled")` used at
lines 166 and 210 of the source. -/
def Status.isTerminal : Status → Bool
  | Status.done => true
  | Status.error => true
  | Status.canceled => true
  | _ => false

/-- One task's state dict, as created by `start_background_task` and mutated
by `_safe_update`.  Keys that may be absent are `Option`s. -/
structure ProgressState where
  status : Status
  percent : Nat
  message : String
  filename : String
  total : Nat
  current : Nat
  cancel_requested : Bool
  tmp_dir : String
  eta_seconds : Option Int
  started_at : Option Nat
  finished_at : Option Nat
  download_filename : Option String
deriving DecidableEq, Repr

/-- A partial update dict `kv` as passed to `_safe_update(task_id, kv)`:
`some v` means the key is present in `kv` with value `v`. -/
structure UpdateKV where
  status : Option Status
  percent : Option Nat
  message : Option String
  total : Option Nat
  current : Option Nat
  cancel_requested : Option Bool
  eta_seconds : Option Int
  started_at : Option Nat
  finished_at : Option Nat
  download_filename : Option String
deriving DecidableEq, Repr

/-- Merge of one maybe-present key into a maybe-present key (dict update). -/
def setOpt {α : Type} (new old : Option α) : Option α :=
  match new with
  | some v => some v
  | none => old

/-- `st.update(kv)`: field-wise merge of a partial update into a state.
`filename` and `tmp_dir` are never in any `kv` the program builds, so they
are untouched. -/
def applyKV (st : ProgressState) (kv : UpdateKV) : ProgressState :=
  { status := kv.status.getD st.status
    percent := kv.percent.getD st.percent
    message := kv.message.getD st.message
    filename := st.filename
    total := kv.total.getD st.total
    current := kv.current.getD st.current
    cancel_requested := kv.cancel_requested.getD st.cancel_requested
    tmp_dir := st.tmp_dir
    eta_seconds := setOpt kv.eta_seconds st.eta_seconds
    started_at := setOpt kv.started_at st.started_at
    finished_at := setOpt kv.finished_at st.finished_at
    download_filename := setOpt kv.download_filename st.download_filename }

/-- The initial dict stored by `start_background_task` (source lines 132-141). -/
def initialState (filename tmpdir : String) : ProgressState :=
  { status := Status.idle
    percent := 0
    message := ""
    filename := filename
    total := 0
    current := 0
    cancel_requested := false
    tmp_dir := tmpdir
    eta_seconds := none
    started_at := none
    finished_at := none
    download_filename := none }

/-- Python `int(x)` on a real value: truncation toward zero, over `Rat`
(`q.num / q.den` is in lowest terms with `q.den > 0`). -/
def pyInt (q : Rat) : Int :=
  if 0 ≤ q then Int.ofNat (q.num.toNat / q.den) else -Int.ofNat ((-q.num).toNat / q.den)

/-- Line 96-97 of the source:
`elapsed = max(time.time() - start, 1e-6)` and
`eta = int((total - idx) / (idx / elapsed)) if idx else 0`. -/
def etaSeconds (total idx : Nat) (rawElapsed : Rat) : Int :=
  if idx = 0 then 0
  else pyInt (((total : Rat) - (idx : Rat)) / ((idx : Rat) / max rawElapsed (1 / 1000000)))

/-- The update of line 54: status running, message, percent 0, started_at. -/
def runningInitKV (startT : Nat) : UpdateKV :=
  { status := some Status.running
    percent := some 0
    message := some "读取文件..."
    total := none
    current := none
    cancel_requested := none
    eta_seconds := none
    started_at := some startT
    finished_at := none
    download_filename := none }

/-- The update of line 80: `{"total": total, "current": 0}`. -/
def totalsKV (total : Nat) : UpdateKV :=
  { status := none
    percent := none
    message := none
    total := some total
    current := some 0
    cancel_requested := none
    eta_seconds := none
    started_at := none
    finished_at := none
    download_filename := none }

/-- The update of line 83 (zero rows to translate): done, percent 100. -/
def zeroDoneKV : UpdateKV :=
  { status := some Status.done
    percent := some 100
    message := some "无需翻译"
    total := none
    current := none
    cancel_requested := none
    eta_seconds := none
    started_at := none
    finished_at := none
    download_filename := none }

/-- The update of line 89, taken when the cancel check reads true. -/
def canceledKV : UpdateKV :=
  { status := some Status.canceled
    percent := none
    message := some "已取消"
    total := none
    current := none
    cancel_requested := none
    eta_seconds := none
    started_at := none
    finished_at := none
    download_filename := none }

/-- The per-row progress update of lines 98-103. -/
def progressKV (idx total : Nat) (rawElapsed : Rat) : UpdateKV :=
  { status := none
    percent := some (idx * 100 / total)
    message := some ("翻译中(" ++ toString idx ++ "/" ++ toString total ++ ")")
    total := none
    current := some idx
    cancel_requested := none
    eta_seconds := some (etaSeconds total idx rawElapsed)
    started_at := none
    finished_at := none
    download_filename := none }

/-- The completion update of lines 110-117. -/
def doneKV (total : Nat) (stem : String) (finishT : Nat) : UpdateKV :=
  { status := some Status.done
    percent := some 100
    message := some ("翻译完成，共处理 " ++ toString total ++ " 行")
    total := none
    current := none
    cancel_requested := none
    eta_seconds := some 0
    started_at := none
    finished_at := some finishT
    download_filename := some (stem ++ "_中文翻译.xlsx") }

/-- The exception handler update of line 119. -/
def errorKV (m : String) (finishT : Nat) : UpdateKV :=
  { status := some Status.error
    percent := none
    message := some m
    total := none
    current := none
    cancel_requested := none
    eta_seconds := none
    started_at := none
    finished_at := some finishT
    download_filename := none }

/-- The update issued by `task_cancel` on a non-terminal task (line 212). -/
def cancelReqKV : UpdateKV :=
  { status := none
    percent := none
    message := some "取消中..."
    total := none
    current := none
    cancel_requested := some true
    eta_seconds := none
    started_at := none
    finished_at := none
    download_filename := none }

/-- Oracle environment of one `_run_task` worker run: everything the thread
reads from outside the registry.  `load` is the joint outcome of
`load_workbook`, the Title-column scan, the insert, and the
`rows_to_translate` count (lines 56-79): an error message or the number of
eligible rows.  `cancelObs idx` is the `cancel_requested` value the check of
iteration `idx` reads (line 88); `raiseAt idx` an exception raised inside
iteration `idx`, if any; `saveResult` the outcome of `wb.save` (line 108);
`startT`, `finishT`, `elapsedAt` are clock readings. -/
structure RunEnv where
  load : Except String Nat
  cancelObs : Nat → Bool
  raiseAt : Nat → Option String
  saveResult : Except String Unit
  stem : String
  startT : Nat
  finishT : Nat
  elapsedAt : Nat → Rat

/-- The translation loop of lines 87-104 followed by the save and
completion / error handling of lines 106-119, as the list of `_safe_update`
payloads it issues.  `rem` is the number of iterations left, `idx` the
1-based index of the next row (`idx + rem = total + 1`). -/
def transLoop (env : RunEnv) (total : Nat) : Nat → Nat → List UpdateKV
  | 0, _ =>
      match env.saveResult with
      | Except.ok _ => [doneKV total env.stem env.finishT]
      | Except.error m => [errorKV m env.finishT]
  | rem + 1, idx =>
      if env.cancelObs idx then
        [canceledKV]
      else
        match env.raiseAt idx with
        | some m => [errorKV m env.finishT]
        | none =>
            progressKV idx total (env.elapsedAt idx) :: transLoop env total rem (idx + 1)

/-- The full sequence of `_safe_update` payloads of one `_run_task` run
(lines 53-119), branch for branch. -/
def runTaskUpdates (env : RunEnv) : List UpdateKV :=
  runningInitKV env.startT ::
    match env.load with
    | Except.error m => [errorKV m env.finishT]
    | Except.ok total =>
        totalsKV total ::
          (if total = 0 then [zeroDoneKV] else transLoop env total total 1)

/-- The task's state after a full worker run applied to the freshly created
entry, when no other writer interferes. -/
def runTaskFinal (env : RunEnv) (filename tmpdir : String) : ProgressState :=
  (runTaskUpdates env).foldl applyKV (initialState filename tmpdir)

/-- The `TASKS` dict: task identifier to state.  Its keys are unique, so a
function to `Option` is the faithful model. -/
abbrev Registry := String → Option ProgressState

/-- The registry with no tasks. -/
def emptyRegistry : Registry := fun _ => none

/-- `_get_state` (lines 42-44): a snapshot copy; the empty dict returned for
an unknown identifier is `none`. -/
def getState (r : Registry) (tid : String) : Option ProgressState := r tid

/-- `_safe_update` (lines 36-40), one lock-protected block: merge `kv` into
the entry if present, silently do nothing otherwise. -/
def opSafeUpdate (tid : String) (kv : UpdateKV) (r : Registry) : Registry :=
  fun k => if k = tid then (r tid).map (fun st => applyKV st kv) else r k

/-- `TASKS.pop(task_id, None)` (line 50), the sweeper's removal. -/
def opPop (tid : String) (r : Registry) : Registry :=
  fun k => if k = tid then none else r k

/-- Insertion of the fresh entry by `start_background_task` (lines 131-141). -/
def createTask (tid filename tmpdir : String) (r : Registry) : Registry :=
  fun k => if k = tid then some (initialState filename tmpdir) else r k

/-- Outcome of the `task_cancel` endpoint: 404 not found, 200 already
finished, or 202 cancellation requested. -/
inductive CancelResult
  | notFound
  | alreadyDone
  | requested
deriving DecidableEq, Repr

/-- Whether the endpoint's JSON body says `success: True` (lines 211, 213). -/
def CancelResult.isSuccess : CancelResult → Bool
  | CancelResult.notFound => false
  | _ => true

/-- `task_cancel` (lines 205-213) run to completion with no interleaved
writer between its `_get_state` and its `_safe_update`. -/
def taskCancel (tid : String) (r : Registry) : CancelResult × Registry :=
  match getState r tid with
  | none => (CancelResult.notFound, r)
  | some st =>
      if st.status.isTerminal then (CancelResult.alreadyDone, r)
      else (CancelResult.requested, opSafeUpdate tid cancelReqKV r)

/-- One registry-touching request on a fixed identifier, for closure
properties over operation sequences. -/
inductive ClientOp
  | update (kv : UpdateKV)
  | cancel
  | snapshot

/-- Effect of one client operation on the registry (snapshots read only). -/
def applyClientOp (tid : String) (r : Registry) : ClientOp → Registry
  | ClientOp.update kv => opSafeUpdate tid kv r
  | ClientOp.cancel => (taskCancel tid r).2
  | ClientOp.snapshot => r

/-- Effect of a sequence of client operations on the registry. -/
def applyClientOps (tid : String) (r : Registry) (ops : List ClientOp) : Registry :=
  ops.foldl (applyClientOp tid) r

/-- Folding a list of worker updates into the registry, each through
`_safe_update`. -/
def applyUpdates (tid : String) (kvs : List UpdateKV) (r : Registry) : Registry :=
  kvs.foldl (fun r2 kv => opSafeUpdate tid kv r2) r

/-- Observable actions of one `_run_task` call beyond registry updates: the
`finally` block's best-effort `shutil.rmtree` of the scratch directory and
the `_schedule_state_cleanup` call (lines 120-127). -/
inductive RunEvent
  | upd (kv : UpdateKV)
  | releaseResource (ok : Bool)
  | scheduleSweeper
deriving DecidableEq

/-- The observable action sequence of one `_run_task` call: every branch of
the `try` body ends in the `finally` block, which attempts the removal of
the scratch directory (failures swallowed by `ignore_errors=True` and the
inner `except: pass`, recorded in the flag `releaseOk`) and then always
calls `_schedule_state_cleanup`. -/
def runTaskEvents (env : RunEnv) (releaseOk : Bool) : List RunEvent :=
  (runTaskUpdates env).map RunEvent.upd ++
    [RunEvent.releaseResource releaseOk, RunEvent.scheduleSweeper]

/-- Whether an event is the scratch-directory release. -/
def isReleaseB : RunEvent → Bool
  | RunEvent.releaseResource _ => true
  | _ => false

/-- Whether an event is the scheduling of the retention sweeper. -/
def isSweepB : RunEvent → Bool
  | RunEvent.scheduleSweeper => true
  | _ => false

/-- Whether an update dict sets `status` to a terminal value. -/
def setsTerminalB (kv : UpdateKV) : Bool :=
  match kv.status with
  | some s => s.isTerminal
  | none => false

/-- Whether an update dict sets `status` to `error`. -/
def setsErrorB (kv : UpdateKV) : Bool :=
  match kv.status with
  | some Status.error => true
  | _ => false

/-- `noEarlyTerminal l` holds when no element of `l` other than the last
sets a terminal status. -/
def noEarlyTerminal : List UpdateKV → Bool
  | [] => true
  | kv :: rest => rest.isEmpty || (!setsTerminalB kv && noEarlyTerminal rest)

/-- One message written to the SSE response by `sse_progress` (lines
146-169): either the bare task-not-found payload of line 151 (status
`error`, message `任务不存在`, no `event: progress` framing) or a framed
progress snapshot of the state read at that poll. -/
inductive SseEvent
  | notFound
  | progress (snap : ProgressState)
deriving DecidableEq

/-- The event stream of `sse_progress`: at each poll `k` it reads the
registry (oracle `polls k`); an absent task yields the not-found payload and
closes; otherwise it yields a snapshot and closes exactly when that
snapshot's status is terminal.  `fuel` bounds the number of polls modelled
(the real loop is unbounded while the task stays live). -/
def sseStream (polls : Nat → Option ProgressState) : Nat → Nat → List SseEvent
  | 0, _ => []
  | fuel + 1, k =>
      match polls k with
      | none => [SseEvent.notFound]
      | some st =>
          SseEvent.progress st ::
            (if st.status.isTerminal then [] else sseStream polls fuel (k + 1))

/-- Whether a stream element may legitimately be followed by further
elements: only a snapshot of a non-terminal state. -/
def sseOkB : SseEvent → Bool
  | SseEvent.progress st => !st.status.isTerminal
  | SseEvent.notFound => false

/-- `sseNoEarlyStop l` holds when every element of `l` other than the last
is a non-terminal progress snapshot. -/
def sseNoEarlyStop : List SseEvent → Bool
  | [] => true
  | ev :: rest => rest.isEmpty || (sseOkB ev && sseNoEarlyStop rest)

/-- Whether an update dict sets the `finished_at` key. -/
def setsFinB (kv : UpdateKV) : Bool := kv.finished_at.isSome

/-- A finished task state, as left by a completed one-row run. -/
def stDoneEx : ProgressState :=
  { status := Status.done
    percent := 100
    message := "翻译完成，共处理 1 行"
    filename := "a.xlsx"
    total := 1
    current := 1
    cancel_requested := false
    tmp_dir := "/tmp/d"
    eta_seconds := some 0
    started_at := some 1
    finished_at := some 9
    download_filename := some "a_中文翻译.xlsx" }

/-- A one-entry registry holding `st` under identifier `t`. -/
def sampleReg (st : ProgressState) : Registry :=
  fun k => if k = "t" then some st else none

/-- Oracle values of a one-row run that completes without cancellation or
failure. -/
def envRun1 : RunEnv :=
  ⟨Except.ok 1, fun _ => false, fun _ => none, Except.ok (), "a", 1, 9, fun _ => 1⟩

/-- Registry after creation and the worker's first two updates of `envRun1`:
the point at which a concurrently running `task_cancel` performs its
`_get_state` check. -/
def exReg2 : Registry :=
  opSafeUpdate "t" (totalsKV 1)
    (opSafeUpdate "t" (runningInitKV 1) (createTask "t" "a.xlsx" "/tmp/d" emptyRegistry))

/-- Registry after the rest of the `envRun1` worker run: the task is
terminal; the cancel handler's deferred `_safe_update` has not yet run. -/
def exReg4 : Registry :=
  opSafeUpdate "t" (doneKV 1 "a" 9) (opSafeUpdate "t" (progressKV 1 1 1) exReg2)

/-- Oracle values of a one-row run whose first cancel check reads true. -/
def envCanceled1 : RunEnv :=
  ⟨Except.ok 1, fun _ => true, fun _ => none, Except.ok (), "b", 2, 9, fun _ => 1⟩

/-- Oracle values of a three-row run whose cancel checks read true from the
second check on. -/
def envCancelAt2 : RunEnv :=
  ⟨Except.ok 3, fun k => decide (2 ≤ k), fun _ => none, Except.ok (), "d", 0, 7, fun _ => 1⟩

/-- Oracle values of a run whose load/scan phase raises. -/
def envLoadFail : RunEnv :=
  ⟨Except.error "找不到 Title 列", fun _ => false, fun _ => none, Except.ok (), "e", 4, 8, fun _ => 1⟩

/-- Oracle values of a two-row run whose first iteration raises. -/
def envRaiseAt1 : RunEnv :=
  ⟨Except.ok 2, fun _ => false, fun k => if k = 1 then some "boom" else none,
    Except.ok (), "f", 0, 7, fun _ => 1⟩

/-- Oracle values of a one-row run whose `wb.save` raises. -/
def envSaveFail : RunEnv :=
  ⟨Except.ok 1, fun _ => false, fun _ => none, Except.error "磁盘已满", "g", 0, 7, fun _ => 1⟩

/-- Registry after a cancellation request lands on `exReg2` — that is, while
the `envRun1` worker is inside its only iteration, after that iteration's
cancel check (line 88) has already read false.  The request succeeds (202):
the task is `running` with `current = 0 < total = 1` and the flag now set. -/
def lateCancelReg : Registry := (taskCancel "t" exReg2).2

/-- Registry after the rest of that worker run: no later check exists, so
the request is never observed; the worker writes its progress update and the
completion update. -/
def lateCancelFinalReg : Registry :=
  opSafeUpdate "t" (doneKV 1 "a" 9) (opSafeUpdate "t" (progressKV 1 1 1) lateCancelReg)

/-! Shared helper lemmas. -/

/-- Merging the same maybe-present key twice equals merging it once. -/
lemma getD_self_getD {α : Type} (o : Option α) (x : α) : o.getD (o.getD x) = o.getD x := by
  cases o <;> rfl

/-- Overwriting the same maybe-present key twice equals overwriting it once. -/
lemma setOpt_self_setOpt {α : Type} (o x : Option α) : setOpt o (setOpt o x) = setOpt o x := by
  cases o <;> rfl

/-- Applying the same update dict twice equals applying it once. -/
lemma applyKV_idem (st : ProgressState) (kv : UpdateKV) :
    applyKV (applyKV st kv) kv = applyKV st kv := by
  simp [applyKV, getD_self_getD, setOpt_self_setOpt]

/-- `_safe_update` at the updated identifier. -/
lemma opSafeUpdate_get_self (tid : String) (kv : UpdateKV) (r : Registry) :
    opSafeUpdate tid kv r tid = (r tid).map (fun st => applyKV st kv) := by
  simp [opSafeUpdate]

/-- `_safe_update` never creates or removes an entry. -/
lemma applyUpdates_get (tid : String) (kvs : List UpdateKV) (r : Registry) :
    applyUpdates tid kvs r tid = (r tid).map (fun st => kvs.foldl applyKV st) := by
  induction kvs generalizing r with
  | nil =>
      cases h : r tid <;> simp [applyUpdates, h]
  | cons kv t ih =>
      have h2 := ih (opSafeUpdate tid kv r)
      cases h : r tid with
      | none =>
          simp [applyUpdates, List.foldl_cons] at h2 ⊢
          rw [h2, opSafeUpdate_get_self, h]
          rfl
      | some st =>
          simp [applyUpdates, List.foldl_cons] at h2 ⊢
          rw [h2, opSafeUpdate_get_self, h]
          rfl

/-- The translation loop always issues at least one update. -/
lemma transLoop_ne_nil (env : RunEnv) (total rem idx : Nat) :
    transLoop env total rem idx ≠ [] := by
  cases rem with
  | zero =>
      cases h : env.saveResult <;> simp [transLoop, h]
  | succ n =>
      by_cases hc : env.cancelObs idx
      · simp [transLoop, hc]
      · cases h : env.raiseAt idx <;> simp [transLoop, hc, h]

/-- Snapshot, update, and cancel on an identifier absent from the registry:
snapshot is absent, update and cancel leave the registry untouched, and
cancel reports not found. -/
lemma absent_ops (r : Registry) (tid : String) (h : r tid = none) :
    getState r tid = none
  ∧ (∀ kv, opSafeUpdate tid kv r = r)
  ∧ taskCancel tid r = (CancelResult.notFound, r) := by
  refine ⟨h, ?_, ?_⟩
  · intro kv
    funext k
    by_cases hk : k = tid
    · simp [opSafeUpdate, hk, h]
    · simp [opSafeUpdate, hk]
  · simp [taskCancel, getState, h]

/-- Cancelling a task whose status is terminal is a pure no-op returning
the already-finished success result. -/
lemma taskCancel_terminal (r : Registry) (tid : String) (st : ProgressState)
    (h : r tid = some st) (ht : st.status.isTerminal = true) :
    taskCancel tid r = (CancelResult.alreadyDone, r) := by
  simp [taskCancel, getState, h, ht]

/-- The cancellation-request update touches only `cancel_requested` and
`message`. -/
lemma cancelReqKV_fields (st : ProgressState) :
    (applyKV st cancelReqKV).status = st.status
  ∧ (applyKV st cancelReqKV).percent = st.percent
  ∧ (applyKV st cancelReqKV).current = st.current
  ∧ (applyKV st cancelReqKV).total = st.total
  ∧ (applyKV st cancelReqKV).filename = st.filename
  ∧ (applyKV st cancelReqKV).eta_seconds = st.eta_seconds
  ∧ (applyKV st cancelReqKV).started_at = st.started_at
  ∧ (applyKV st cancelReqKV).finished_at = st.finished_at
  ∧ (applyKV st cancelReqKV).download_filename = st.download_filename
  ∧ (applyKV st cancelReqKV).cancel_requested = true :=
  ⟨rfl, rfl, rfl, rfl, rfl, rfl, rfl, rfl, rfl, rfl⟩

/-- Every update issued by the translation loop is an error, cancellation,
completion, or in-range progress update. -/
lemma transLoop_shapes (env : RunEnv) (total : Nat) :
    ∀ rem idx kv, kv ∈ transLoop env total rem idx → 1 ≤ idx → idx + rem = total + 1 →
      (∃ m, kv = errorKV m env.finishT)
    ∨ kv = canceledKV
    ∨ (∃ t, kv = doneKV t env.stem env.finishT)
    ∨ (∃ i e, 1 ≤ i ∧ i ≤ total ∧ kv = progressKV i total e) := by
  intro rem
  induction rem with
  | zero =>
      intro idx kv hmem h1 hsum
      cases hs : env.saveResult with
      | ok u =>
          simp [transLoop, hs] at hmem
          exact Or.inr (Or.inr (Or.inl ⟨total, hmem⟩))
      | error m =>
          simp [transLoop, hs] at hmem
          exact Or.inl ⟨m, hmem⟩
  | succ n ih =>
      intro idx kv hmem h1 hsum
      by_cases hc : env.cancelObs idx = true
      · simp [transLoop, hc] at hmem
        exact Or.inr (Or.inl hmem)
      · cases hr : env.raiseAt idx with
        | some m =>
            simp [transLoop, hc, hr] at hmem
            exact Or.inl ⟨m, hmem⟩
        | none =>
            simp [transLoop, hc, hr] at hmem
            rcases hmem with h | h
            · exact Or.inr (Or.inr (Or.inr ⟨idx, env.elapsedAt idx, h1, by omega, h⟩))
            · exact ih (idx + 1) kv h (by omega) (by omega)

/-- Every update issued by a worker run has one of the seven shapes the
source can build. -/
lemma runTaskUpdates_shapes (env : RunEnv) :
    ∀ kv ∈ runTaskUpdates env,
      kv = runningInitKV env.startT
    ∨ (∃ m, kv = errorKV m env.finishT)
    ∨ (∃ n, kv = totalsKV n)
    ∨ kv = zeroDoneKV
    ∨ kv = canceledKV
    ∨ (∃ t, kv = doneKV t env.stem env.finishT)
    ∨ (∃ i total e, 1 ≤ i ∧ i ≤ total ∧ env.load = Except.ok total ∧ kv = progressKV i total e) := by
  intro kv hmem
  unfold runTaskUpdates at hmem
  rcases List.mem_cons.mp hmem with h | h
  · exact Or.inl h
  · cases hl : env.load with
    | error m =>
        rw [hl] at h
        simp at h
        exact Or.inr (Or.inl ⟨m, h⟩)
    | ok total =>
        rw [hl] at h
        rcases List.mem_cons.mp h with h2 | h2
        · exact Or.inr (Or.inr (Or.inl ⟨total, h2⟩))
        · by_cases h0 : total = 0
          · rw [if_pos h0] at h2
            simp at h2
            exact Or.inr (Or.inr (Or.inr (Or.inl h2)))
          · rw [if_neg h0] at h2
            rcases transLoop_shapes env total total 1 kv h2 (by omega) (by omega) with
              he | hc | hd | hp
            · exact Or.inr (Or.inl he)
            · exact Or.inr (Or.inr (Or.inr (Or.inr (Or.inl hc))))
            · exact Or.inr (Or.inr (Or.inr (Or.inr (Or.inr (Or.inl hd)))))
            · rcases hp with ⟨i, e, hi1, hi2, hkv⟩
              exact Or.inr (Or.inr (Or.inr (Or.inr (Or.inr (Or.inr
                ⟨i, total, e, hi1, hi2, rfl, hkv⟩)))))

/-- With no cancellation, no exception, and a successful save, folding the
translation loop into a state with `current = idx - 1` yields the completed
state: done, percent 100, download name, `finished_at`, `current = total`. -/
lemma transLoop_success (env : RunEnv) (total : Nat)
    (hobs : ∀ k, env.cancelObs k = false) (hraise : ∀ k, env.raiseAt k = none)
    (hsave : env.saveResult = Except.ok ()) :
    ∀ rem idx st, idx + rem = total + 1 → st.current = idx - 1 →
      ((transLoop env total rem idx).foldl applyKV st).status = Status.done
    ∧ ((transLoop env total rem idx).foldl applyKV st).percent = 100
    ∧ ((transLoop env total rem idx).foldl applyKV st).download_filename
        = some (env.stem ++ "_中文翻译.xlsx")
    ∧ ((transLoop env total rem idx).foldl applyKV st).finished_at = some env.finishT
    ∧ ((transLoop env total rem idx).foldl applyKV st).current = total := by
  intro rem
  induction rem with
  | zero =>
      intro idx st hsum hcur
      simp only [transLoop, hsave, List.foldl_cons, List.foldl_nil]
      refine ⟨rfl, rfl, rfl, rfl, ?_⟩
      show st.current = total
      omega
  | succ n ih =>
      intro idx st hsum hcur
      simp only [transLoop, hobs idx, hraise idx, Bool.false_eq_true, if_false,
        List.foldl_cons]
      exact ih (idx + 1) (applyKV st (progressKV idx total (env.elapsedAt idx)))
        (by omega) rfl

/-- If some cancel check at or before index `j ≤ total` reads true and no
iteration raises, folding the translation loop from index `idx ≤ j` yields a
canceled state whose `current` stays at most `j - 1`, with no download
reference ever written. -/
lemma transLoop_cancel (env : RunEnv) (total j : Nat)
    (hraise : ∀ k, env.raiseAt k = none) (hj : env.cancelObs j = true) (hjt : j ≤ total) :
    ∀ rem idx st, idx + rem = total + 1 → idx ≤ j →
      st.current ≤ j - 1 → st.download_filename = none →
      ((transLoop env total rem idx).foldl applyKV st).status = Status.canceled
    ∧ ((transLoop env total rem idx).foldl applyKV st).current ≤ j - 1
    ∧ ((transLoop env total rem idx).foldl applyKV st).download_filename = none := by
  intro rem
  induction rem with
  | zero =>
      intro idx st hsum hle hcur hdl
      omega
  | succ n ih =>
      intro idx st hsum hle hcur hdl
      by_cases hc : env.cancelObs idx = true
      · simp only [transLoop, hc, if_true, List.foldl_cons, List.foldl_nil]
        exact ⟨rfl, hcur, hdl⟩
      · have hne : idx ≠ j := fun he => hc (he ▸ hj)
        simp only [transLoop, hc, Bool.false_eq_true, if_false, hraise idx,
          List.foldl_cons]
        exact ih (idx + 1) (applyKV st (progressKV idx total (env.elapsedAt idx)))
          (by omega) (by omega) (by show idx ≤ j - 1; omega) hdl

/-- If iteration `k ≤ total` raises with message `m`, no earlier iteration
raises, and no cancel check up to `k` reads true, folding the translation
loop from index `idx ≤ k` yields an error state carrying `m` and a
`finished_at` timestamp. -/
lemma transLoop_error (env : RunEnv) (total k : Nat) (m : String)
    (hkt : k ≤ total)
    (hobs : ∀ i, i ≤ k → env.cancelObs i = false)
    (hraiselt : ∀ i, i < k → env.raiseAt i = none)
    (hk : env.raiseAt k = some m) :
    ∀ rem idx st, idx + rem = total + 1 → idx ≤ k →
      ((transLoop env total rem idx).foldl applyKV st).status = Status.error
    ∧ ((transLoop env total rem idx).foldl applyKV st).message = m
    ∧ ((transLoop env total rem idx).foldl applyKV st).finished_at = some env.finishT := by
  intro rem
  induction rem with
  | zero =>
      intro idx st hsum hle
      omega
  | succ n ih =>
      intro idx st hsum hle
      have hc := hobs idx hle
      by_cases hik : idx = k
      · subst hik
        simp only [transLoop, hc, Bool.false_eq_true, if_false, hk,
          List.foldl_cons, List.foldl_nil]
        exact ⟨rfl, rfl, rfl⟩
      · simp only [transLoop, hc, Bool.false_eq_true, if_false,
          hraiselt idx (by omega), List.foldl_cons]
        exact ih (idx + 1) (applyKV st (progressKV idx total (env.elapsedAt idx)))
          (by omega) (by omega)

/-- With no cancellation and no in-loop exception, a failing `wb.save`
drives the translation loop's fold to an error state carrying the save
exception's message and a `finished_at` timestamp. -/
lemma transLoop_saveError (env : RunEnv) (total : Nat) (m : String)
    (hobs : ∀ k, env.cancelObs k = false) (hraise : ∀ k, env.raiseAt k = none)
    (hsave : env.saveResult = Except.error m) :
    ∀ rem idx st,
      ((transLoop env total rem idx).foldl applyKV st).status = Status.error
    ∧ ((transLoop env total rem idx).foldl applyKV st).message = m
    ∧ ((transLoop env total rem idx).foldl applyKV st).finished_at = some env.finishT := by
  intro rem
  induction rem with
  | zero =>
      intro idx st
      simp only [transLoop, hsave, List.foldl_cons, List.foldl_nil]
      exact ⟨rfl, rfl, rfl⟩
  | succ n ih =>
      intro idx st
      simp only [transLoop, hobs idx, Bool.false_eq_true, if_false, hraise idx,
        List.foldl_cons]
      exact ih (idx + 1) _

/-- The translation loop writes `finished_at` at most once. -/
lemma transLoop_finCount (env : RunEnv) (total : Nat) :
    ∀ rem idx, (transLoop env total rem idx).countP setsFinB ≤ 1 := by
  intro rem
  induction rem with
  | zero =>
      intro idx
      cases hs : env.saveResult <;>
        simp [transLoop, hs, List.countP_cons, setsFinB, doneKV, errorKV]
  | succ n ih =>
      intro idx
      by_cases hc : env.cancelObs idx = true
      · simp [transLoop, hc, List.countP_cons, setsFinB, canceledKV]
      · cases hr : env.raiseAt idx with
        | some m =>
            simp [transLoop, hc, hr, List.countP_cons, setsFinB, errorKV]
        | none =>
            simp only [transLoop, hc, Bool.false_eq_true, if_false, hr,
              List.countP_cons, setsFinB, progressKV]
            simpa using ih (idx + 1)

/-- A non-terminal-setting update may be prepended to a list already free of
early terminal updates. -/
lemma noEarlyTerminal_cons (kv a : UpdateKV) (l : List UpdateKV)
    (h1 : setsTerminalB kv = false) (h2 : noEarlyTerminal (a :: l) = true) :
    noEarlyTerminal (kv :: a :: l) = true := by
  show ((a :: l).isEmpty || (!setsTerminalB kv && noEarlyTerminal (a :: l))) = true
  rw [h1, h2]
  rfl

/-- No update of the translation loop other than its last sets a terminal
status. -/
lemma transLoop_noEarly (env : RunEnv) (total : Nat) :
    ∀ rem idx, noEarlyTerminal (transLoop env total rem idx) = true := by
  intro rem
  induction rem with
  | zero =>
      intro idx
      cases hs : env.saveResult <;> simp [transLoop, hs, noEarlyTerminal]
  | succ n ih =>
      intro idx
      by_cases hc : env.cancelObs idx = true
      · simp [transLoop, hc, noEarlyTerminal]
      · cases hr : env.raiseAt idx with
        | some m => simp [transLoop, hc, hr, noEarlyTerminal]
        | none =>
            have hne := transLoop_ne_nil env total n (idx + 1)
            simp only [transLoop, hc, Bool.false_eq_true, if_false, hr]
            cases hL : transLoop env total n (idx + 1) with
            | nil => exact absurd hL hne
            | cons a l =>
                have hrec := ih (idx + 1)
                rw [hL] at hrec
                exact noEarlyTerminal_cons _ a l rfl hrec

/-- No update of a worker run other than its last sets a terminal status. -/
lemma runTaskUpdates_noEarly (env : RunEnv) :
    noEarlyTerminal (runTaskUpdates env) = true := by
  obtain ⟨load, obs, rso, save, stem, sT, fT, el⟩ := env
  cases load with
  | error m =>
      exact noEarlyTerminal_cons _ _ _ rfl rfl
  | ok total =>
      by_cases h0 : total = 0
      · subst h0
        exact noEarlyTerminal_cons _ _ _ rfl (noEarlyTerminal_cons _ _ _ rfl rfl)
      · have hred : runTaskUpdates ⟨Except.ok total, obs, rso, save, stem, sT, fT, el⟩
            = runningInitKV sT :: totalsKV total
                :: transLoop ⟨Except.ok total, obs, rso, save, stem, sT, fT, el⟩ total total 1 := by
          simp [runTaskUpdates, if_neg h0]
        rw [hred]
        have hne := transLoop_ne_nil ⟨Except.ok total, obs, rso, save, stem, sT, fT, el⟩ total total 1
        cases hL : transLoop ⟨Except.ok total, obs, rso, save, stem, sT, fT, el⟩ total total 1 with
        | nil => exact absurd hL hne
        | cons a l =>
            have hrec := transLoop_noEarly ⟨Except.ok total, obs, rso, save, stem, sT, fT, el⟩ total total 1
            rw [hL] at hrec
            exact noEarlyTerminal_cons _ _ _ rfl
              (noEarlyTerminal_cons _ a l rfl hrec)

/-- A snapshot of a non-terminal state may be prepended to a stream already
free of early stop events. -/
lemma sseNoEarlyStop_cons (st : ProgressState) (a : SseEvent) (l : List SseEvent)
    (h1 : st.status.isTerminal = false) (h2 : sseNoEarlyStop (a :: l) = true) :
    sseNoEarlyStop (SseEvent.progress st :: a :: l) = true := by
  show ((a :: l).isEmpty || (sseOkB (SseEvent.progress st) && sseNoEarlyStop (a :: l))) = true
  rw [h2]
  show (false || (!st.status.isTerminal && true)) = true
  rw [h1]
  rfl

/-! Claim theorems. -/

/-- C9: a well-formed artifact with 0 eligible rows drives the task to
status done with total 0 and percent 100 (line 83), and no update of that
run ever sets status error. -/
theorem C9_zero_work (cancelObs : Nat → Bool) (raiseAt : Nat → Option String)
    (saveResult : Except String Unit) (stem : String) (startT finishT : Nat)
    (elapsedAt : Nat → Rat) (filename tmpdir : String) :
    (runTaskFinal ⟨Except.ok 0, cancelObs, raiseAt, saveResult, stem, startT, finishT, elapsedAt⟩
        filename tmpdir).status = Status.done
  ∧ (runTaskFinal ⟨Except.ok 0, cancelObs, raiseAt, saveResult, stem, startT, finishT, elapsedAt⟩
        filename tmpdir).total = 0
  ∧ (runTaskFinal ⟨Except.ok 0, cancelObs, raiseAt, saveResult, stem, startT, finishT, elapsedAt⟩
        filename tmpdir).percent = 100
  ∧ (runTaskUpdates ⟨Except.ok 0, cancelObs, raiseAt, saveResult, stem, startT, finishT, elapsedAt⟩).all
        (fun kv => !setsErrorB kv) = true :=
  ⟨rfl, rfl, rfl, rfl⟩

/-- C4: every worker run, whatever its branch and whether or not the
best-effort scratch-directory removal succeeds, performs the resource
release and the sweeper scheduling exactly once each, in that order, as its
final two actions. -/
theorem C4_finalization (env : RunEnv) (releaseOk : Bool) :
    (runTaskEvents env releaseOk).countP isReleaseB = 1
  ∧ (runTaskEvents env releaseOk).countP isSweepB = 1
  ∧ (runTaskEvents env releaseOk).getLast? = some RunEvent.scheduleSweeper
  ∧ (runTaskEvents env releaseOk).dropLast.getLast?
      = some (RunEvent.releaseResource releaseOk) := by
  have hmapR : ∀ l : List UpdateKV, (l.map RunEvent.upd).countP isReleaseB = 0 := by
    intro l
    induction l with
    | nil => rfl
    | cons a t ih => simp [List.countP_cons, isReleaseB, ih]
  have hmapS : ∀ l : List UpdateKV, (l.map RunEvent.upd).countP isSweepB = 0 := by
    intro l
    induction l with
    | nil => rfl
    | cons a t ih => simp [List.countP_cons, isSweepB, ih]
  have hsplit : runTaskEvents env releaseOk
      = ((runTaskUpdates env).map RunEvent.upd ++ [RunEvent.releaseResource releaseOk])
          ++ [RunEvent.scheduleSweeper] := by
    simp [runTaskEvents]
  refine ⟨?_, ?_, ?_, ?_⟩
  · rw [runTaskEvents, List.countP_append, hmapR]
    rfl
  · rw [runTaskEvents, List.countP_append, hmapS]
    rfl
  · rw [hsplit]
    exact List.getLast?_concat _
  · rw [hsplit, List.dropLast_concat]
    exact List.getLast?_concat _

/-- C6: for an identifier absent from the registry, a snapshot reports
absence, an update is a silent no-op, cancellation reports not found, and no
sequence of update/cancel/snapshot operations on that identifier ever
changes the registry or resurrects an entry. -/
theorem C6_absent_semantics (r : Registry) (tid : String) (h : r tid = none) :
    getState r tid = none
  ∧ (∀ kv, opSafeUpdate tid kv r = r)
  ∧ taskCancel tid r = (CancelResult.notFound, r)
  ∧ (∀ ops : List ClientOp, applyClientOps tid r ops = r
      ∧ applyClientOps tid r ops tid = none) := by
  obtain ⟨h1, h2, h3⟩ := absent_ops r tid h
  refine ⟨h1, h2, h3, ?_⟩
  intro ops
  have hfix : applyClientOps tid r ops = r := by
    induction ops with
    | nil => rfl
    | cons op t ih =>
        have hop : applyClientOp tid r op = r := by
          cases op with
          | update kv => exact h2 kv
          | cancel =>
              show (taskCancel tid r).2 = r
              rw [h3]
          | snapshot => rfl
        show applyClientOps tid (applyClientOp tid r op) t = r
        rw [hop]
        exact ih
  exact ⟨hfix, by rw [hfix]; exact h⟩

/-- C6 witness: the absent-identifier semantics at the empty registry. -/
theorem C6_witness :
    getState emptyRegistry "x" = none
  ∧ opSafeUpdate "x" cancelReqKV emptyRegistry = emptyRegistry
  ∧ taskCancel "x" emptyRegistry = (CancelResult.notFound, emptyRegistry)
  ∧ applyClientOps "x" emptyRegistry
      [ClientOp.cancel, ClientOp.update cancelReqKV, ClientOp.snapshot] = emptyRegistry := by
  obtain ⟨h1, h2, h3, h4⟩ := C6_absent_semantics emptyRegistry "x" rfl
  exact ⟨h1, h2 cancelReqKV, h3, (h4 _).1⟩

/-- C7: requesting cancellation twice leaves the same result and registry as
requesting it once; on a terminal task it is a success no-op; on an unknown
identifier it reports not found. -/
theorem C7_cancel_idempotent (r : Registry) (tid : String) :
    taskCancel tid (taskCancel tid r).2 = taskCancel tid r
  ∧ (∀ st, r tid = some st → st.status.isTerminal = true →
      taskCancel tid r = (CancelResult.alreadyDone, r)
      ∧ CancelResult.isSuccess (taskCancel tid r).1 = true)
  ∧ (r tid = none → taskCancel tid r = (CancelResult.notFound, r)) := by
  refine ⟨?_, ?_, ?_⟩
  · cases hr : r tid with
    | none =>
        have h := (absent_ops r tid hr).2.2
        rw [h]
        exact h
    | some st =>
        by_cases ht : st.status.isTerminal = true
        · have h := taskCancel_terminal r tid st hr ht
          rw [h]
          exact h
        · have hb : st.status.isTerminal = false := by
            revert ht
            cases st.status.isTerminal <;> simp
          have h1 : taskCancel tid r
              = (CancelResult.requested, opSafeUpdate tid cancelReqKV r) := by
            simp [taskCancel, getState, hr, hb]
          have h2 : opSafeUpdate tid cancelReqKV r tid = some (applyKV st cancelReqKV) := by
            rw [opSafeUpdate_get_self, hr]
            rfl
          have h3 : (applyKV st cancelReqKV).status.isTerminal = false := by
            rw [(cancelReqKV_fields st).1]
            exact hb
          have h4 : opSafeUpdate tid cancelReqKV (opSafeUpdate tid cancelReqKV r)
              = opSafeUpdate tid cancelReqKV r := by
            funext k
            by_cases hk : k = tid
            · subst hk
              rw [opSafeUpdate_get_self, h2]
              simp [applyKV_idem, h2]
            · simp [opSafeUpdate, hk]
          rw [h1]
          simp [taskCancel, getState, h2, h3, h4]
  · intro st hst ht
    have h := taskCancel_terminal r tid st hst ht
    exact ⟨h, by rw [h]; rfl⟩
  · intro h
    exact (absent_ops r tid h).2.2

/-- C7 witness: idempotence and terminal no-op at a concrete one-entry
registry holding a finished task. -/
theorem C7_witness :
    taskCancel "t" (taskCancel "t" (sampleReg stDoneEx)).2 = taskCancel "t" (sampleReg stDoneEx)
  ∧ taskCancel "t" (sampleReg stDoneEx) = (CancelResult.alreadyDone, sampleReg stDoneEx)
  ∧ taskCancel "x" emptyRegistry = (CancelResult.notFound, emptyRegistry) := by
  obtain ⟨h1, h2, _⟩ := C7_cancel_idempotent (sampleReg stDoneEx) "t"
  obtain ⟨_, _, h3⟩ := C7_cancel_idempotent emptyRegistry "x"
  exact ⟨h1, (h2 stDoneEx rfl rfl).1, h3 rfl⟩

/-- C3 counterexample: the claim fails when the cancellation request lands
after the last per-row check of the run, because no later check exists to
observe it.  Concretely, in the one-row `envRun1` run: the only check (line
88) reads false in `exReg2`; the cancel endpoint then sets the flag while
the task is `running` with `current = 0 < total = 1` (`lateCancelReg`, the
claim's premise); the worker, with no remaining check, writes its progress
and completion updates (`lateCancelFinalReg`) — the task ends `done` with a
download reference and never reaches `canceled`. -/
theorem C3_counterexample :
    runTaskUpdates envRun1 = [runningInitKV 1, totalsKV 1, progressKV 1 1 1, doneKV 1 "a" 9]
  ∧ (getState exReg2 "t").map ProgressState.cancel_requested = some false
  ∧ (taskCancel "t" exReg2).1 = CancelResult.requested
  ∧ (getState lateCancelReg "t").map ProgressState.cancel_requested = some true
  ∧ (getState lateCancelReg "t").map ProgressState.status = some Status.running
  ∧ (getState lateCancelReg "t").map ProgressState.current = some 0
  ∧ (getState lateCancelReg "t").map ProgressState.total = some 1
  ∧ (getState lateCancelFinalReg "t").map ProgressState.status = some Status.done
  ∧ (getState lateCancelFinalReg "t").map ProgressState.download_filename
      = some (some ("a" ++ "_中文翻译.xlsx"))
  ∧ (getState lateCancelFinalReg "t").map ProgressState.cancel_requested = some true :=
  ⟨rfl, rfl, rfl, rfl, rfl, rfl, rfl, rfl, rfl, rfl⟩

/-- C3 amended: cancellation takes effect only through the per-row checks.
If the cancel check of some iteration `j` (`1 ≤ j ≤ total`) reads true and
no iteration raises, the worker stops at that check: the task reaches
`canceled`, `current` stays at most `j - 1` (at most one further unit
completes after the request lands), no download reference is written, and
worker updates never write `cancel_requested`.  If no check ever reads true
and the run does not fail, the run completes to `done` with a download
reference — a request landing after the final check is not honored. -/
theorem C3_cancellation_latency :
    (∀ (env : RunEnv) (total j : Nat) (filename tmpdir : String),
        env.load = Except.ok total → 1 ≤ j → j ≤ total →
        env.cancelObs j = true → (∀ k, env.raiseAt k = none) →
        (runTaskFinal env filename tmpdir).status = Status.canceled
      ∧ (runTaskFinal env filename tmpdir).current ≤ j - 1
      ∧ (runTaskFinal env filename tmpdir).download_filename = none
      ∧ (runTaskUpdates env).all (fun kv => kv.cancel_requested.isNone) = true)
  ∧ (∀ (env : RunEnv) (total : Nat) (filename tmpdir : String),
        env.load = Except.ok total → total ≠ 0 →
        (∀ k, env.cancelObs k = false) → (∀ k, env.raiseAt k = none) →
        env.saveResult = Except.ok () →
        (runTaskFinal env filename tmpdir).status = Status.done
      ∧ (runTaskFinal env filename tmpdir).download_filename
          = some (env.stem ++ "_中文翻译.xlsx")) := by
  constructor
  · intro env total j filename tmpdir hload hj1 hjt hobs hraise
    have htot : total ≠ 0 := by omega
    have hfin : runTaskFinal env filename tmpdir
        = (transLoop env total total 1).foldl applyKV
            (applyKV (applyKV (initialState filename tmpdir) (runningInitKV env.startT))
              (totalsKV total)) := by
      unfold runTaskFinal runTaskUpdates
      rw [hload]
      simp [htot]
    have hmain := transLoop_cancel env total j hraise hobs hjt total 1
      (applyKV (applyKV (initialState filename tmpdir) (runningInitKV env.startT)) (totalsKV total))
      (by omega) hj1 (Nat.zero_le _) rfl
    refine ⟨by rw [hfin]; exact hmain.1, by rw [hfin]; exact hmain.2.1,
      by rw [hfin]; exact hmain.2.2, ?_⟩
    rw [List.all_eq_true]
    intro kv hmem
    rcases runTaskUpdates_shapes env kv hmem with h | ⟨m, h⟩ | ⟨n, h⟩ | h | h | ⟨t, h⟩
      | ⟨i, tt, e, _, _, _, h⟩ <;> subst h <;> rfl
  · intro env total filename tmpdir hload htot hobs hraise hsave
    have hfin : runTaskFinal env filename tmpdir
        = (transLoop env total total 1).foldl applyKV
            (applyKV (applyKV (initialState filename tmpdir) (runningInitKV env.startT))
              (totalsKV total)) := by
      unfold runTaskFinal runTaskUpdates
      rw [hload]
      simp [htot]
    have hmain := transLoop_success env total hobs hraise hsave total 1
      (applyKV (applyKV (initialState filename tmpdir) (runningInitKV env.startT)) (totalsKV total))
      (by omega) rfl
    exact ⟨by rw [hfin]; exact hmain.1, by rw [hfin]; exact hmain.2.2.1⟩

/-- C3 witness: a three-row run whose cancel checks read true from check 2
on ends canceled with at most one completed row and no download, and a
one-row run with no observing check completes to done with a download. -/
theorem C3_witness :
    (runTaskFinal envCancelAt2 "d.xlsx" "/tmp/d").status = Status.canceled
  ∧ (runTaskFinal envCancelAt2 "d.xlsx" "/tmp/d").current ≤ 1
  ∧ (runTaskFinal envCancelAt2 "d.xlsx" "/tmp/d").download_filename = none
  ∧ (runTaskFinal envRun1 "a.xlsx" "/tmp/d").status = Status.done
  ∧ (runTaskFinal envRun1 "a.xlsx" "/tmp/d").download_filename
      = some ("a" ++ "_中文翻译.xlsx") := by
  obtain ⟨h1, h2⟩ := C3_cancellation_latency
  have ha := h1 envCancelAt2 3 2 "d.xlsx" "/tmp/d" rfl (by omega) (by omega) rfl
    (fun k => rfl)
  have hb := h2 envRun1 1 "a.xlsx" "/tmp/d" rfl (by omega) (fun k => rfl) (fun k => rfl) rfl
  exact ⟨ha.1, ha.2.1, ha.2.2.1, hb.1, hb.2⟩

/-- C5: an exception at any of the worker's three failure sites — the
load/scan phase (lines 56-72), any loop iteration (lines 92-94), or
`wb.save` (line 108) — is converted to `status=error` carrying the
exception's message and a `finished_at` timestamp (the worker returns
normally: `runTaskUpdates` is total); and no sequence of `_safe_update`
calls can make a present task unqueryable. -/
theorem C5_worker_failure_containment :
    (∀ (env : RunEnv) (m filename tmpdir : String), env.load = Except.error m →
        (runTaskFinal env filename tmpdir).status = Status.error
      ∧ (runTaskFinal env filename tmpdir).message = m
      ∧ (runTaskFinal env filename tmpdir).finished_at = some env.finishT)
  ∧ (∀ (env : RunEnv) (total k : Nat) (m filename tmpdir : String),
        env.load = Except.ok total → 1 ≤ k → k ≤ total →
        (∀ i, i ≤ k → env.cancelObs i = false) →
        (∀ i, i < k → env.raiseAt i = none) →
        env.raiseAt k = some m →
        (runTaskFinal env filename tmpdir).status = Status.error
      ∧ (runTaskFinal env filename tmpdir).message = m
      ∧ (runTaskFinal env filename tmpdir).finished_at = some env.finishT)
  ∧ (∀ (env : RunEnv) (total : Nat) (m filename tmpdir : String),
        env.load = Except.ok total → total ≠ 0 →
        (∀ i, env.cancelObs i = false) → (∀ i, env.raiseAt i = none) →
        env.saveResult = Except.error m →
        (runTaskFinal env filename tmpdir).status = Status.error
      ∧ (runTaskFinal env filename tmpdir).message = m
      ∧ (runTaskFinal env filename tmpdir).finished_at = some env.finishT)
  ∧ (∀ (r : Registry) (tid : String) (st : ProgressState) (kvs : List UpdateKV),
        r tid = some st → applyUpdates tid kvs r tid = some (kvs.foldl applyKV st)) := by
  refine ⟨?_, ?_, ?_, ?_⟩
  · intro env m filename tmpdir hload
    unfold runTaskFinal runTaskUpdates
    rw [hload]
    exact ⟨rfl, rfl, rfl⟩
  · intro env total k m filename tmpdir hload hk1 hkt hobs hlt hk
    have htot : total ≠ 0 := by omega
    have hfin : runTaskFinal env filename tmpdir
        = (transLoop env total total 1).foldl applyKV
            (applyKV (applyKV (initialState filename tmpdir) (runningInitKV env.startT))
              (totalsKV total)) := by
      unfold runTaskFinal runTaskUpdates
      rw [hload]
      simp [htot]
    rw [hfin]
    exact transLoop_error env total k m hkt hobs hlt hk total 1 _ (by omega) hk1
  · intro env total m filename tmpdir hload htot hobs hraise hsave
    have hfin : runTaskFinal env filename tmpdir
        = (transLoop env total total 1).foldl applyKV
            (applyKV (applyKV (initialState filename tmpdir) (runningInitKV env.startT))
              (totalsKV total)) := by
      unfold runTaskFinal runTaskUpdates
      rw [hload]
      simp [htot]
    rw [hfin]
    exact transLoop_saveError env total m hobs hraise hsave total 1 _
  · intro r tid st kvs h
    rw [applyUpdates_get, h]
    rfl

/-- C5 witness: a failing load, a first-row exception, and a failing save
each end in an error state carrying the message, and a present entry stays
queryable. -/
theorem C5_witness :
    (runTaskFinal envLoadFail "e.xlsx" "/tmp/e").status = Status.error
  ∧ (runTaskFinal envLoadFail "e.xlsx" "/tmp/e").message = "找不到 Title 列"
  ∧ (runTaskFinal envRaiseAt1 "f.xlsx" "/tmp/f").status = Status.error
  ∧ (runTaskFinal envRaiseAt1 "f.xlsx" "/tmp/f").message = "boom"
  ∧ (runTaskFinal envRaiseAt1 "f.xlsx" "/tmp/f").finished_at = some 7
  ∧ (runTaskFinal envSaveFail "g.xlsx" "/tmp/g").status = Status.error
  ∧ (runTaskFinal envSaveFail "g.xlsx" "/tmp/g").message = "磁盘已满"
  ∧ (runTaskFinal envSaveFail "g.xlsx" "/tmp/g").finished_at = some 7
  ∧ applyUpdates "t" [] (sampleReg stDoneEx) "t" = some stDoneEx := by
  obtain ⟨h1, h2, h3, h4⟩ := C5_worker_failure_containment
  have ha := h1 envLoadFail "找不到 Title 列" "e.xlsx" "/tmp/e" rfl
  have hb := h2 envRaiseAt1 2 1 "boom" "f.xlsx" "/tmp/f" rfl (by omega) (by omega)
    (fun i _ => rfl)
    (fun i hi => by
      have h0 : i = 0 := by omega
      subst h0
      rfl)
    rfl
  have hc := h3 envSaveFail 1 "磁盘已满" "g.xlsx" "/tmp/g" rfl (by omega)
    (fun i => rfl) (fun i => rfl) rfl
  exact ⟨ha.1, ha.2.1, hb.1, hb.2.1, hb.2.2, hc.1, hc.2.1, hc.2.2,
    h4 (sampleReg stDoneEx) "t" stDoneEx [] rfl⟩

/-- C8: a stream opened on an unknown identifier emits exactly the
not-found event and closes; every emitted element other than the last is a
non-terminal snapshot (so at most one terminal snapshot is emitted, always
last); a poll reading a terminal state emits that single snapshot and
closes; and the not-found event is distinct from every snapshot event. -/
theorem C8_stream_termination :
    (∀ (polls : Nat → Option ProgressState) (fuel : Nat), polls 0 = none →
        sseStream polls (fuel + 1) 0 = [SseEvent.notFound])
  ∧ (∀ (polls : Nat → Option ProgressState) (fuel k : Nat),
        sseNoEarlyStop (sseStream polls fuel k) = true)
  ∧ (∀ (polls : Nat → Option ProgressState) (fuel k : Nat) (st : ProgressState),
        polls k = some st → st.status.isTerminal = true →
        sseStream polls (fuel + 1) k = [SseEvent.progress st])
  ∧ (∀ st : ProgressState, SseEvent.notFound ≠ SseEvent.progress st) := by
  refine ⟨?_, ?_, ?_, ?_⟩
  · intro polls fuel h
    simp [sseStream, h]
  · intro polls fuel
    induction fuel with
    | zero => intro k; rfl
    | succ n ih =>
        intro k
        cases hp : polls k with
        | none => simp [sseStream, hp, sseNoEarlyStop]
        | some st =>
            by_cases ht : st.status.isTerminal = true
            · simp [sseStream, hp, ht, sseNoEarlyStop]
            · have hb : st.status.isTerminal = false := by
                revert ht
                cases st.status.isTerminal <;> simp
              cases hS : sseStream polls n (k + 1) with
              | nil => simp [sseStream, hp, hb, hS, sseNoEarlyStop]
              | cons a l =>
                  have hrec := ih (k + 1)
                  rw [hS] at hrec
                  have hgoal : sseStream polls (n + 1) k
                      = SseEvent.progress st :: a :: l := by
                    simp [sseStream, hp, hb, hS]
                  rw [hgoal]
                  exact sseNoEarlyStop_cons st a l hb hrec
  · intro polls fuel k st hp ht
    simp [sseStream, hp, ht]
  · intro st h
    exact SseEvent.noConfusion h

/-- C8 witness: the not-found stream on an always-absent registry and the
single-snapshot stream on an already-finished task. -/
theorem C8_witness :
    sseStream (fun _ => none) 1 0 = [SseEvent.notFound]
  ∧ sseStream (fun _ => some stDoneEx) 5 0 = [SseEvent.progress stDoneEx] := by
  obtain ⟨h1, _, h3, _⟩ := C8_stream_termination
  exact ⟨h1 (fun _ => none) 0 rfl, h3 (fun _ => some stDoneEx) 4 0 stDoneEx rfl rfl⟩

/-- C10: the divisor `idx / max elapsed 1e-6` of the ETA expression is
strictly positive whenever `idx ≥ 1` (which the loop guarantees, so the
guarded division never divides by zero), and every `eta_seconds` value any
worker update writes is a non-negative integer. -/
theorem C10_eta_nonneg :
    (∀ (idx : Nat) (raw : Rat), 1 ≤ idx → 0 < (idx : Rat) / max raw (1 / 1000000))
  ∧ (∀ (env : RunEnv) (kv : UpdateKV), kv ∈ runTaskUpdates env →
        ∀ e : Int, kv.eta_seconds = some e → 0 ≤ e) := by
  have hdivpos : ∀ (idx : Nat) (raw : Rat), 1 ≤ idx → 0 < (idx : Rat) / max raw (1 / 1000000) := by
    intro idx raw h
    apply div_pos
    · exact_mod_cast Nat.pos_of_ne_zero (by omega)
    · exact lt_of_lt_of_le (by norm_num) (le_max_right _ _)
  have heta : ∀ (total idx : Nat) (raw : Rat), 1 ≤ idx → idx ≤ total →
      0 ≤ etaSeconds total idx raw := by
    intro total idx raw h1 h2
    unfold etaSeconds
    rw [if_neg (by omega : ¬idx = 0)]
    unfold pyInt
    have hq : 0 ≤ ((total : Rat) - (idx : Rat)) / ((idx : Rat) / max raw (1 / 1000000)) := by
      apply div_nonneg
      · rw [sub_nonneg]
        exact_mod_cast h2
      · exact le_of_lt (hdivpos idx raw h1)
    rw [if_pos hq]
    exact Int.ofNat_nonneg _
  refine ⟨hdivpos, ?_⟩
  intro env kv hmem e he
  rcases runTaskUpdates_shapes env kv hmem with h | ⟨m, h⟩ | ⟨n, h⟩ | h | h | ⟨t, h⟩
    | ⟨i, total, e2, hi1, hi2, _, h⟩ <;> subst h
  · exact absurd he (by simp [runningInitKV])
  · exact absurd he (by simp [errorKV])
  · exact absurd he (by simp [totalsKV])
  · exact absurd he (by simp [zeroDoneKV])
  · exact absurd he (by simp [canceledKV])
  · have h0 : (0 : Int) = e := by simpa [doneKV] using he
    exact h0.le
  · have h0 : etaSeconds total i e2 = e := by simpa [progressKV] using he
    rw [← h0]
    exact heta total i e2 hi1 hi2

/-- C10 witness: the divisor is positive and the first progress update of a
concrete one-row run carries a non-negative ETA. -/
theorem C10_witness :
    0 < ((1 : Nat) : Rat) / max 0 (1 / 1000000)
  ∧ 0 ≤ etaSeconds 1 1 1 := by
  obtain ⟨h1, h2⟩ := C10_eta_nonneg
  refine ⟨h1 1 0 (by omega), ?_⟩
  refine h2 envRun1 (progressKV 1 1 1) ?_ (etaSeconds 1 1 1) rfl
  rw [show runTaskUpdates envRun1
      = [runningInitKV 1, totalsKV 1, progressKV 1 1 1, doneKV 1 "a" 9] from rfl]
  exact List.mem_cons_of_mem _ (List.mem_cons_of_mem _ (List.mem_cons_self _ _))

/-- C1 counterexample: the claim "once terminal, no subsequent operation
changes any field" fails under the two-lock structure of `task_cancel`
(lines 207 and 212 acquire the registry lock separately).  Concretely: in
`exReg2` (after the worker's first two updates of the `envRun1` run) the
cancel handler's `_get_state` check reads status `running`, so it proceeds;
the worker then finishes (`exReg4`, status `done`, terminal); the handler's
deferred `_safe_update` of line 212 then changes the terminal task's
`message` and `cancel_requested` fields. -/
theorem C1_counterexample :
    runTaskUpdates envRun1 = [runningInitKV 1, totalsKV 1, progressKV 1 1 1, doneKV 1 "a" 9]
  ∧ (getState exReg2 "t").map ProgressState.status = some Status.running
  ∧ Status.running.isTerminal = false
  ∧ (getState exReg4 "t").map ProgressState.status = some Status.done
  ∧ Status.done.isTerminal = true
  ∧ (getState (opSafeUpdate "t" cancelReqKV exReg4) "t").map ProgressState.message
      ≠ (getState exReg4 "t").map ProgressState.message
  ∧ (getState (opSafeUpdate "t" cancelReqKV exReg4) "t").map ProgressState.cancel_requested
      = some true
  ∧ (getState exReg4 "t").map ProgressState.cancel_requested = some false :=
  ⟨rfl, rfl, rfl, rfl, rfl, by decide, rfl, rfl⟩

/-- C1 amended: the worker thread never updates a task after setting a
terminal status (a terminal-setting update is always the last update of a
run); a cancellation request whose status check reads a terminal state is a
pure no-op; and the only racy post-terminal mutation — the deferred line-212
update of a cancellation request whose check read a pre-terminal state —
changes only `cancel_requested` and `message`, never status, progress
counters, timestamps, or the download reference. -/
theorem C1_terminal_amended :
    (∀ env : RunEnv, noEarlyTerminal (runTaskUpdates env) = true)
  ∧ (∀ (r : Registry) (tid : String) (st : ProgressState),
        r tid = some st → st.status.isTerminal = true →
        taskCancel tid r = (CancelResult.alreadyDone, r))
  ∧ (∀ st : ProgressState,
        (applyKV st cancelReqKV).status = st.status
      ∧ (applyKV st cancelReqKV).percent = st.percent
      ∧ (applyKV st cancelReqKV).current = st.current
      ∧ (applyKV st cancelReqKV).total = st.total
      ∧ (applyKV st cancelReqKV).eta_seconds = st.eta_seconds
      ∧ (applyKV st cancelReqKV).started_at = st.started_at
      ∧ (applyKV st cancelReqKV).finished_at = st.finished_at
      ∧ (applyKV st cancelReqKV).download_filename = st.download_filename) :=
  ⟨runTaskUpdates_noEarly,
   fun r tid st h ht => taskCancel_terminal r tid st h ht,
   fun _ => ⟨rfl, rfl, rfl, rfl, rfl, rfl, rfl, rfl⟩⟩

/-- C1 witness: the amended statement at a concrete canceled run and a
concrete one-entry registry holding a finished task. -/
theorem C1_witness :
    noEarlyTerminal (runTaskUpdates envCanceled1) = true
  ∧ taskCancel "t" (sampleReg stDoneEx) = (CancelResult.alreadyDone, sampleReg stDoneEx)
  ∧ (applyKV stDoneEx cancelReqKV).status = stDoneEx.status := by
  obtain ⟨h1, h2, h3⟩ := C1_terminal_amended
  exact ⟨h1 envCanceled1, h2 (sampleReg stDoneEx) "t" stDoneEx rfl rfl, (h3 stDoneEx).1⟩

/-- C2 counterexample: not every terminal transition sets `finished_at`.
The cancellation transition (line 89) and the zero-rows done transition
(line 83) leave `finished_at` unset, so a run canceled at its first check
ends terminal (`canceled`) with `finished_at` absent, and a zero-row run
ends terminal (`done`) with `finished_at` absent. -/
theorem C2_counterexample :
    runTaskUpdates envCanceled1 = [runningInitKV 2, totalsKV 1, canceledKV]
  ∧ (runTaskFinal envCanceled1 "b.xlsx" "/tmp/e").status = Status.canceled
  ∧ Status.canceled.isTerminal = true
  ∧ (runTaskFinal envCanceled1 "b.xlsx" "/tmp/e").finished_at = none
  ∧ (runTaskFinal ⟨Except.ok 0, fun _ => false, fun _ => none, Except.ok (), "b", 2, 9, fun _ => 1⟩
        "b.xlsx" "/tmp/e").status = Status.done
  ∧ (runTaskFinal ⟨Except.ok 0, fun _ => false, fun _ => none, Except.ok (), "b", 2, 9, fun _ => 1⟩
        "b.xlsx" "/tmp/e").finished_at = none :=
  ⟨rfl, rfl, rfl, rfl, rfl, rfl⟩

/-- C2 amended: `finished_at` is written at most once per run; the
full-completion done transition sets it together with `percent=100` and the
download reference (and leaves `current = total`), and every error
transition sets it; but the canceled transition and the zero-row done
transition (which still sets done/percent 100) leave `finished_at` unset. -/
theorem C2_finished_at_amended :
    (∀ (env : RunEnv) (total : Nat) (filename tmpdir : String),
        env.load = Except.ok total → total ≠ 0 →
        (∀ k, env.cancelObs k = false) → (∀ k, env.raiseAt k = none) →
        env.saveResult = Except.ok () →
        (runTaskFinal env filename tmpdir).status = Status.done
      ∧ (runTaskFinal env filename tmpdir).percent = 100
      ∧ (runTaskFinal env filename tmpdir).download_filename
          = some (env.stem ++ "_中文翻译.xlsx")
      ∧ (runTaskFinal env filename tmpdir).finished_at = some env.finishT
      ∧ (runTaskFinal env filename tmpdir).current = total)
  ∧ (∀ (env : RunEnv) (kv : UpdateKV), kv ∈ runTaskUpdates env →
        kv.status = some Status.error → kv.finished_at = some env.finishT)
  ∧ (∀ (env : RunEnv) (kv : UpdateKV), kv ∈ runTaskUpdates env →
        kv.status = some Status.canceled → kv.finished_at = none)
  ∧ (zeroDoneKV.status = some Status.done ∧ zeroDoneKV.percent = some 100
      ∧ zeroDoneKV.finished_at = none)
  ∧ (∀ env : RunEnv, (runTaskUpdates env).countP setsFinB ≤ 1) := by
  refine ⟨?_, ?_, ?_, ⟨rfl, rfl, rfl⟩, ?_⟩
  · intro env total filename tmpdir hload htot hobs hraise hsave
    have hfin : runTaskFinal env filename tmpdir
        = (transLoop env total total 1).foldl applyKV
            (applyKV (applyKV (initialState filename tmpdir) (runningInitKV env.startT))
              (totalsKV total)) := by
      unfold runTaskFinal runTaskUpdates
      rw [hload]
      simp [htot]
    rw [hfin]
    exact transLoop_success env total hobs hraise hsave total 1 _ (by omega) rfl
  · intro env kv hmem he
    rcases runTaskUpdates_shapes env kv hmem with h | ⟨m, h⟩ | ⟨n, h⟩ | h | h | ⟨t, h⟩
      | ⟨i, tt, e, _, _, _, h⟩ <;> subst h
    · exact absurd he (by simp [runningInitKV])
    · rfl
    · exact absurd he (by simp [totalsKV])
    · exact absurd he (by simp [zeroDoneKV])
    · exact absurd he (by simp [canceledKV])
    · exact absurd he (by simp [doneKV])
    · exact absurd he (by simp [progressKV])
  · intro env kv hmem he
    rcases runTaskUpdates_shapes env kv hmem with h | ⟨m, h⟩ | ⟨n, h⟩ | h | h | ⟨t, h⟩
      | ⟨i, tt, e, _, _, _, h⟩ <;> subst h
    · exact absurd he (by simp [runningInitKV])
    · exact absurd he (by simp [errorKV])
    · exact absurd he (by simp [totalsKV])
    · exact absurd he (by simp [zeroDoneKV])
    · rfl
    · exact absurd he (by simp [doneKV])
    · exact absurd he (by simp [progressKV])
  · intro env
    obtain ⟨load, obs, rso, save, stem, sT, fT, el⟩ := env
    cases load with
    | error m =>
        simp [runTaskUpdates, List.countP_cons, setsFinB, runningInitKV, errorKV]
    | ok total =>
        by_cases h0 : total = 0
        · subst h0
          simp [runTaskUpdates, List.countP_cons, setsFinB, runningInitKV, totalsKV,
            zeroDoneKV]
        · have hred : runTaskUpdates ⟨Except.ok total, obs, rso, save, stem, sT, fT, el⟩
              = runningInitKV sT :: totalsKV total
                  :: transLoop ⟨Except.ok total, obs, rso, save, stem, sT, fT, el⟩ total total 1 := by
            simp [runTaskUpdates, h0]
          rw [hred, List.countP_cons, List.countP_cons]
          have hle := transLoop_finCount ⟨Except.ok total, obs, rso, save, stem, sT, fT, el⟩
            total total 1
          simpa [setsFinB, runningInitKV, totalsKV] using hle

/-- C2 witness: the amended success-path postconditions at a concrete
one-row run. -/
theorem C2_witness :
    (runTaskFinal envRun1 "a.xlsx" "/tmp/d").status = Status.done
  ∧ (runTaskFinal envRun1 "a.xlsx" "/tmp/d").percent = 100
  ∧ (runTaskFinal envRun1 "a.xlsx" "/tmp/d").download_filename
      = some ("a" ++ "_中文翻译.xlsx")
  ∧ (runTaskFinal envRun1 "a.xlsx" "/tmp/d").finished_at = some 9
  ∧ (runTaskFinal envRun1 "a.xlsx" "/tmp/d").current = 1 := by
  obtain ⟨h1, _, _, _, _⟩ := C2_finished_at_amended
  exact h1 envRun1 1 "a.xlsx" "/tmp/d" rfl (by omega) (fun k => rfl) (fun k => rfl) rfl
